import Mathlib

/-!
Shallow embedding of `backend/utils/build_runner.py`: the build execution
engine of the repository, consisting of `run_command_and_stream` (one step:
spawn a process, stream its lines into a 15-line persistence batcher and a
5-line-throttled live event channel, return the exit code) and
`run_build_thread` (one build: look up the record, mark it running, iterate
the pipeline steps fail-fast, write the terminal status, with a top-level
exception handler).

Modelling decisions, each tied to the source:
* The child process behind a command is environment data (`StepBehavior`):
  `subprocess.Popen` either raises (the `except` at line 28 turns this into
  exit code 1) or yields a finite list of already-`rstrip`-ped text lines
  and an exit code.
* Each `db.session.get(Build, build_id)` call site gets its own lookup
  result in `Env` (`entryLookup`, `termLookup`, `handlerLookup`), which
  models concurrent deletion of the record between calls.  A `none` result
  at a dereferencing site (`build.status = ...` with `build = None`) is the
  `AttributeError` the Python code would raise there.
* Status writes are recorded as `Write` values: which status was assigned
  and whether `finished_at` was assigned in the same commit.  Python
  `datetime.now` is modelled as an opaque timestamp `0`.
* `socketio.emit` calls are recorded as `Event` values in emission order;
  the `try/except: pass` around each emit means delivery failures cannot
  change the trace, so emits are unconditional in the model.
* The progress value `int(((index + 1) / total_steps) * 100)` is modelled
  exactly as the program computes it, in IEEE-754 binary64 arithmetic:
  `pyProgress` rounds the exact quotient to the nearest binary64 value
  (ties to even, subnormals included), rounds the exact product with 100
  the same way, and truncates.  Binary64 rounding of a positive rational
  is deterministic and is computed here over `Nat`/`Int` pairs `(m, p)`
  denoting `m * 2 ^ p`.  This reproduces the float artifacts of the code,
  e.g. `int((29 / 100) * 100) = 28` and `int((58 / 100) * 100) = 57`,
  where exact arithmetic would give 29 and 58.  Overflow and division by
  zero are not modelled: the loop calls it with `1 ≤ completed ≤ total`,
  where neither can occur.
* The `try:`/`except Exception` structure of `run_build_thread` is modelled
  by totality: the body's failure modes (parse error, `AttributeError` on a
  vanished record) are routed to `handlerResult`, and `run_build_thread` is
  a total function, i.e. no exception escapes the background task.
-/

namespace BuildRunner

/-- Status of a `Build` record; the lifecycle is
`queued → running → success | failed`. -/
inductive BuildStatus where
  | queued
  | running
  | success
  | failed
deriving DecidableEq, Repr

/-- A `Build` row as far as the executor touches it: the status column and
the nullable `finished_at` timestamp (time modelled as `Nat`). -/
structure BuildRec where
  status : BuildStatus
  finished_at : Option Nat
deriving DecidableEq, Repr

/-- One pipeline step, `{"cmd": ...}`; `step.get("cmd")` may be absent
(`None`), hence `Option String`. -/
structure Step where
  cmd : Option String
deriving DecidableEq, Repr

/-- Environment model of the child process one command would spawn:
`subprocess.Popen` either raises — caught at `build_runner.py:28`, exit
code 1 — or produces a finite list of output lines and an exit code. -/
inductive StepBehavior where
  | spawnFail
  | runs (lines : List String) (rc : Int)
deriving DecidableEq, Repr

/-- Result of `run_command_and_stream`: the exit code returned, the
`BuildLog` texts committed for this step in insertion order (`rows`), and
the texts sent as `build_log` socket events in emission order (`emits`). -/
structure StreamResult where
  rc : Int
  rows : List String
  emits : List String
deriving DecidableEq, Repr

/-- The `for line in iter(proc.stdout.readline, "")` loop of
`run_command_and_stream` (`build_runner.py:36-63`) followed by the final
flush (`build_runner.py:66-71`): `buffer` is appended to and committed as a
batch once it holds 15 lines; `emit_cooldown` is incremented and every time
it reaches 5 the current line is emitted and the counter reset.  Returns
the committed rows and the emitted lines.  (The source flushes the
remainder only `if buffer:`, which coincides with `rows ++ buffer` since an
empty buffer contributes nothing.) -/
def streamLoop : List String → List String → Nat → List String → List String →
    List String × List String
  | [], buffer, _, rows, emits => (rows ++ buffer, emits)
  | l :: ls, buffer, cooldown, rows, emits =>
      if (buffer ++ [l]).length ≥ 15 then
        if cooldown + 1 ≥ 5 then
          streamLoop ls [] 0 (rows ++ (buffer ++ [l])) (emits ++ [l])
        else
          streamLoop ls [] (cooldown + 1) (rows ++ (buffer ++ [l])) emits
      else
        if cooldown + 1 ≥ 5 then
          streamLoop ls (buffer ++ [l]) 0 rows (emits ++ [l])
        else
          streamLoop ls (buffer ++ [l]) (cooldown + 1) rows emits

/-- `run_command_and_stream(build_id, step_index, cmd, app, socketio)`
(`build_runner.py:11-76`).  `if not cmd: return 0` covers both a missing
`cmd` key (`none`) and the empty string; a spawn failure returns 1 with no
rows and no emits; otherwise the line stream is consumed by `streamLoop`
and the process exit code is returned. -/
def run_command_and_stream (cmd : Option String) (beh : StepBehavior) : StreamResult :=
  match cmd with
  | none => ⟨0, [], []⟩
  | some c =>
      if c = "" then ⟨0, [], []⟩
      else
        match beh with
        | .spawnFail => ⟨1, [], []⟩
        | .runs lines rc =>
            let p := streamLoop lines [] 0 [] []
            ⟨rc, p.1, p.2⟩

/-- A `socketio.emit` call made by `run_build_thread` or (for `buildLog`)
by `run_command_and_stream`, in emission order. -/
inductive Event where
  | statusUpdate (status : BuildStatus)
  | stepStart (idx : Nat) (cmd : Option String)
  | buildLog (idx : Nat) (text : String)
  | progress (value : Nat)
  | finished (status : BuildStatus) (error : Option String)
deriving DecidableEq, Repr

/-- One committed status mutation of the `Build` row: the status assigned
and whether `finished_at` was assigned in the same commit. -/
structure Write where
  status : BuildStatus
  sets_finished : Bool
deriving DecidableEq, Repr

/-- The `build.status = "running"` commit (`build_runner.py:89-90`): no
`finished_at` assignment. -/
def runningWrite : Write := ⟨.running, false⟩

/-- A terminal commit (`build_runner.py:128-130`, `141-143`, `155-157`):
status `failed` or `success` together with `finished_at = now`. -/
def terminalWrite (s : BuildStatus) : Write := ⟨s, true⟩

/-- The environment of one invocation of `run_build_thread`: the result of
each `db.session.get(Build, build_id)` call site (entry guard, terminal
write, exception handler — distinct fields model deletion of the record
between the calls), the outcome of parsing `pipeline_config_json` into the
step list, and the process behavior of each step index. -/
structure Env where
  entryLookup : Option BuildRec
  parse : Except String (List Step)
  beh : Nat → StepBehavior
  termLookup : Option BuildRec
  handlerLookup : Option BuildRec

/-- How the `for index, step in enumerate(steps)` loop ends: all steps
succeeded (`ok`), the fail-fast `return` was taken (`stopped`), or an
exception was raised out of the loop (`err`). -/
inductive LoopOut where
  | ok
  | stopped
  | err (msg : String)
deriving DecidableEq, Repr

/-- Trace of the step loop: events emitted, `BuildLog` rows committed as
`(step_index, text)` pairs in insertion order, status writes, and how the
loop ended. -/
structure StepsResult where
  events : List Event
  logs : List (Nat × String)
  writes : List Write
  out : LoopOut
deriving DecidableEq, Repr

/-- Fuel-bounded binary logarithm: `log2fuel fuel n` is `⌊log₂ n⌋` for
`n ≥ 1` whenever `fuel ≥ n` (the recursion halves `n`, so `n` itself is
always enough fuel).  Structural recursion keeps it kernel-reducible. -/
def log2fuel : Nat → Nat → Nat
  | 0, _ => 0
  | fuel + 1, n => if 2 ≤ n then log2fuel fuel (n / 2) + 1 else 0

/-- `⌊log₂ n⌋` for `n ≥ 1` (0 at 0). -/
def log2Nat (n : Nat) : Nat := log2fuel n n

/-- Round the fraction `n / d` (with `d > 0`) to the nearest integer,
ties to even — the IEEE-754 default rounding of a scaled significand. -/
def rnePos (n d : Nat) : Nat :=
  if 2 * (n % d) < d then n / d
  else if d < 2 * (n % d) then n / d + 1
  else if (n / d) % 2 = 0 then n / d else n / d + 1

/-- `⌊log₂ (a / b)⌋` of the positive rational `a / b` (both arguments
`≥ 1`): the unique `e` with `2 ^ e ≤ a / b < 2 ^ (e + 1)`. -/
def ratLog2 (a b : Nat) : Int :=
  if b ≤ a then (log2Nat (a / b) : Int)
  else
    if b ≤ a * 2 ^ log2Nat (b / a) then -(log2Nat (b / a) : Int)
    else -(log2Nat (b / a) : Int) - 1

/-- The grid exponent at which IEEE-754 binary64 rounds the positive
rational `a / b`: 52 bits below its leading bit, floored at `-1074` (the
subnormal grid). -/
def dblExp (a b : Nat) : Int := max (ratLog2 a b - 52) (-1074)

/-- The significand of `a / b` on the grid `2 ^ p`: the nearest-even
integer to `(a / b) / 2 ^ p`. -/
def mantissa (a b : Nat) (p : Int) : Nat :=
  if p ≤ 0 then rnePos (a * 2 ^ (-p).toNat) b else rnePos a (b * 2 ^ p.toNat)

/-- The IEEE-754 binary64 value nearest to `a / b` (ties to even),
returned as `(m, p)` denoting `m * 2 ^ p`.  Zero numerator gives 0;
`b = 0` (Python would raise `ZeroDivisionError`; unreachable, the caller
passes `totalSteps ≥ 1`) is mapped to 0; overflow to infinity is not
modelled (it needs `a / b ≥ 2 ^ 1024`; the call sites have `a ≤ 100 b`).
-/
def roundDouble (a b : Nat) : Nat × Int :=
  if a = 0 ∨ b = 0 then (0, 0)
  else (mantissa a b (dblExp a b), dblExp a b)

/-- The binary64 product of the double `(m, p)` with the exactly
representable constant 100: the exact product `100 m · 2 ^ p` rounded to
binary64 again, written as a fraction to reuse `roundDouble`. -/
def mulHundred (x : Nat × Int) : Nat × Int :=
  if x.2 ≤ 0 then roundDouble (100 * x.1) (2 ^ (-x.2).toNat)
  else roundDouble (100 * x.1 * 2 ^ x.2.toNat) 1

/-- Python `int()` on the nonnegative double `(m, p)`: truncation toward
zero, i.e. `⌊m · 2 ^ p⌋`. -/
def truncDouble (x : Nat × Int) : Nat :=
  if x.2 ≤ 0 then x.1 / 2 ^ (-x.2).toNat else x.1 * 2 ^ x.2.toNat

/-- `int(((completed) / total_steps) * 100)` (`build_runner.py:119`)
computed exactly as the program does in IEEE-754 binary64: true division
`completed / total` is the correctly rounded double of the exact
quotient, the product with the exactly representable 100 is correctly
rounded again, and `int()` truncates.  E.g. `pyProgress 29 100 = 28` and
`pyProgress 58 100 = 57`, matching the program where exact rational
truncation would give 29 and 58. -/
def pyProgress (completed total : Nat) : Nat :=
  truncDouble (mulHundred (roundDouble completed total))

/-- The events one iteration of the step loop emits regardless of the exit
code (`build_runner.py:106-122`): `build_step_start` before the command
runs, the throttled `build_log` events while it streams, and
`build_progress` with `int(((index + 1) / total_steps) * 100)` — computed
in binary64 by `pyProgress` — afterwards; the progress emit precedes the
exit-code check. -/
def stepEvents (env : Env) (total : Nat) (s : Step) (i : Nat) : List Event :=
  Event.stepStart i s.cmd ::
    ((run_command_and_stream s.cmd (env.beh i)).emits.map (Event.buildLog i) ++
      [Event.progress (pyProgress (i + 1) total)])

/-- The `BuildLog` rows one iteration commits, tagged with its index. -/
def stepLogs (env : Env) (s : Step) (i : Nat) : List (Nat × String) :=
  (run_command_and_stream s.cmd (env.beh i)).rows.map (fun t => (i, t))

/-- The step loop of `run_build_thread` (`build_runner.py:104-136`): emit
`build_step_start`, run the command, emit `build_progress`, and on a
non-zero exit code fetch the record again, mark it failed, emit
`build_finished` and return (a vanished record raises `AttributeError` at
`build.status = "failed"`). -/
def runSteps (env : Env) (total : Nat) : List Step → Nat → StepsResult
  | [], _ => ⟨[], [], [], .ok⟩
  | s :: rest, i =>
      if (run_command_and_stream s.cmd (env.beh i)).rc ≠ 0 then
        match env.termLookup with
        | none => ⟨stepEvents env total s i, stepLogs env s i, [], .err "AttributeError"⟩
        | some _ =>
            ⟨stepEvents env total s i ++ [Event.finished .failed none], stepLogs env s i,
             [terminalWrite .failed], .stopped⟩
      else
        let k := runSteps env total rest (i + 1)
        ⟨stepEvents env total s i ++ k.events, stepLogs env s i ++ k.logs, k.writes, k.out⟩

/-- Full trace of one `run_build_thread` invocation. -/
structure RunResult where
  events : List Event
  logs : List (Nat × String)
  writes : List Write
deriving DecidableEq, Repr

/-- The `except Exception as e:` block (`build_runner.py:150-164`): fetch
the record again and, only if it still exists, mark it failed with
`finished_at`; then emit `build_finished{status: failed, error: str(e)}`
unconditionally. -/
def handlerResult (env : Env) (msg : String) (events : List Event)
    (logs : List (Nat × String)) (writes : List Write) : RunResult :=
  match env.handlerLookup with
  | none => ⟨events ++ [Event.finished .failed (some msg)], logs, writes⟩
  | some _ =>
      ⟨events ++ [Event.finished .failed (some msg)], logs,
       writes ++ [terminalWrite .failed]⟩

/-- `total_steps = len(steps) or 1` (`build_runner.py:102`): the step count
used as the denominator of the progress percentage, floored at 1. -/
def totalSteps (steps : List Step) : Nat :=
  if steps.length = 0 then 1 else steps.length

/-- `run_build_thread(build_id, pipeline_config_json, app, socketio)`
(`build_runner.py:79-164`).  Entry guard: a missing record logs and
returns with an empty trace.  Otherwise mark running, emit
`build_status_update`, parse the config (`total_steps = len(steps) or 1`),
run the step loop, and on completion fetch the record and mark it
`success` (a vanished record raises `AttributeError`, caught like every
other body exception by the handler). -/
def run_build_thread (env : Env) : RunResult :=
  match env.entryLookup with
  | none => ⟨[], [], []⟩
  | some _ =>
      let writes0 : List Write := [runningWrite]
      let events0 : List Event := [Event.statusUpdate .running]
      match env.parse with
      | .error e => handlerResult env e events0 [] writes0
      | .ok steps =>
          let r := runSteps env (totalSteps steps) steps 0
          match r.out with
          | .stopped => ⟨events0 ++ r.events, r.logs, writes0 ++ r.writes⟩
          | .err msg => handlerResult env msg (events0 ++ r.events) r.logs (writes0 ++ r.writes)
          | .ok =>
              match env.termLookup with
              | none =>
                  handlerResult env "AttributeError" (events0 ++ r.events) r.logs
                    (writes0 ++ r.writes)
              | some _ =>
                  ⟨events0 ++ r.events ++ [Event.finished .success none], r.logs,
                   writes0 ++ r.writes ++ [terminalWrite .success]⟩

/-- Step index carried by a `build_step_start` event. -/
def stepStartIdx : Event → Option Nat
  | .stepStart i _ => some i
  | _ => none

/-- Value carried by a `build_progress` event. -/
def progressValue : Event → Option Nat
  | .progress v => some v
  | _ => none

/-- Payload of a `build_finished` event. -/
def finishedPayload : Event → Option (BuildStatus × Option String)
  | .finished s e => some (s, e)
  | _ => none

/-- Exit code of step `s` when run at index `i` under `env`. -/
def stepRC (env : Env) (s : Step) (i : Nat) : Int :=
  (run_command_and_stream s.cmd (env.beh i)).rc

/-- Number of steps the loop executes starting at index `i`: all of them,
or up to and including the first one with a non-zero exit code. -/
def execCount (env : Env) : List Step → Nat → Nat
  | [], _ => 0
  | s :: rest, i => if stepRC env s i ≠ 0 then 1 else 1 + execCount env rest (i + 1)

/-- The `str(e)` the handler would see under `env`: the parse error message
when parsing fails, otherwise the `AttributeError` from dereferencing a
vanished record. -/
def faultMsg (env : Env) : String :=
  match env.parse with
  | .error e => e
  | .ok _ => "AttributeError"

/-- Effect of one committed status write on the `Build` row. -/
def applyWrite (b : BuildRec) (w : Write) : BuildRec :=
  ⟨w.status, if w.sets_finished then some 0 else b.finished_at⟩

end BuildRunner

namespace BuildRunner

/-- Every line observed by the loop ends up committed: the rows produced
are the rows so far, then the pending buffer, then the remaining lines. -/
theorem streamLoop_rows (lines : List String) : ∀ buffer cooldown rows emits,
    (streamLoop lines buffer cooldown rows emits).1 = rows ++ buffer ++ lines := by
  induction lines with
  | nil => intro buffer cooldown rows emits; simp [streamLoop]
  | cons l ls ih =>
      intro buffer cooldown rows emits
      rw [streamLoop]
      split
      · split <;> rw [ih] <;> simp
      · split <;> rw [ih] <;> simp

/-- The throttle emits exactly one line per 5 increments of the cooldown
counter: starting from a cooldown below 5, the number of emitted lines
grows by `(cooldown + number of lines) / 5`. -/
theorem streamLoop_emits_length (lines : List String) : ∀ buffer cooldown rows emits,
    cooldown ≤ 4 →
    (streamLoop lines buffer cooldown rows emits).2.length =
      emits.length + (cooldown + lines.length) / 5 := by
  induction lines with
  | nil =>
      intro buffer cooldown rows emits hc
      simp [streamLoop]
      omega
  | cons l ls ih =>
      intro buffer cooldown rows emits hc
      rw [streamLoop]
      split
      · split
        · rw [ih _ _ _ _ (by omega)]; simp; omega
        · rw [ih _ _ _ _ (by omega)]; simp; omega
      · split
        · rw [ih _ _ _ _ (by omega)]; simp; omega
        · rw [ih _ _ _ _ (by omega)]; simp; omega

/-- On a successfully spawned process, the rows committed for the step are
exactly the lines the process produced, in order. -/
theorem run_command_rows (c : String) (hc : c ≠ "") (lines : List String) (rc : Int) :
    (run_command_and_stream (some c) (.runs lines rc)).rows = lines := by
  simp [run_command_and_stream, hc, streamLoop_rows]

/-- On a successfully spawned process, the number of `build_log` emits is
`⌊L / 5⌋` for `L` produced lines. -/
theorem run_command_emits_length (c : String) (hc : c ≠ "") (lines : List String) (rc : Int) :
    (run_command_and_stream (some c) (.runs lines rc)).emits.length = lines.length / 5 := by
  simp [run_command_and_stream, hc, streamLoop_emits_length lines [] 0 [] [] (by omega)]

/-- C2 — Log completeness: for every step whose process produces `L` output
lines, exactly `L` `BuildLog` rows are persisted for that step, whatever
`L` is relative to the batch threshold of 15; the rows are precisely the
produced lines, so no partial batch is lost. -/
theorem log_completeness (c : String) (hc : c ≠ "") (lines : List String) (rc : Int) :
    (run_command_and_stream (some c) (.runs lines rc)).rows = lines ∧
    (run_command_and_stream (some c) (.runs lines rc)).rows.length = lines.length := by
  refine ⟨run_command_rows c hc lines rc, ?_⟩
  rw [run_command_rows c hc lines rc]

/-- Witness for C2 at a concrete input: a 16-line stream (one full batch of
15 plus a remainder of 1) persists all 16 lines. -/
theorem log_completeness_witness :
    (run_command_and_stream (some "pytest")
        (.runs ((List.range 16).map toString) 0)).rows = (List.range 16).map toString ∧
    (run_command_and_stream (some "pytest")
        (.runs ((List.range 16).map toString) 0)).rows.length =
      ((List.range 16).map toString).length :=
  log_completeness "pytest" (by decide) ((List.range 16).map toString) 0

/-- C3 — Throttle correctness: a step producing `L` lines publishes exactly
`⌊L / 5⌋` `build_log` events, and the throttle has no effect on which lines
are persisted (the rows are still exactly the produced lines). -/
theorem throttle_correctness (c : String) (hc : c ≠ "") (lines : List String) (rc : Int) :
    (run_command_and_stream (some c) (.runs lines rc)).emits.length = lines.length / 5 ∧
    (run_command_and_stream (some c) (.runs lines rc)).rows = lines :=
  ⟨run_command_emits_length c hc lines rc, run_command_rows c hc lines rc⟩

/-- Witness for C3 at a concrete input: 37 lines yield `⌊37 / 5⌋ = 7`
`build_log` events and all 37 lines persisted. -/
theorem throttle_correctness_witness :
    (run_command_and_stream (some "make")
        (.runs ((List.range 37).map toString) 0)).emits.length =
      ((List.range 37).map toString).length / 5 ∧
    (run_command_and_stream (some "make")
        (.runs ((List.range 37).map toString) 0)).rows = (List.range 37).map toString :=
  throttle_correctness "make" (by decide) ((List.range 37).map toString) 0

/-- C8 — Process spawn failure: when the process for a (non-empty) command
cannot be launched, `run_command_and_stream` does not raise; it returns
exit code 1 with no rows and no emits, so the build proceeds to ordinary
fail-fast handling for that step. -/
theorem spawn_failure (c : String) (hc : c ≠ "") :
    run_command_and_stream (some c) .spawnFail = ⟨1, [], []⟩ := by
  simp [run_command_and_stream, hc]

/-- Witness for C8 at a concrete command. -/
theorem spawn_failure_witness :
    run_command_and_stream (some "./gradlew build") StepBehavior.spawnFail = ⟨1, [], []⟩ :=
  spawn_failure "./gradlew build" (by decide)

end BuildRunner

namespace BuildRunner

/-- `build_log` events carry no step-start index, progress value, or
finished payload: filtering a mapped `buildLog` list through any extractor
that ignores `buildLog` yields nothing. -/
theorem filterMap_buildLog_none {α : Type} (f : Event → Option α) (i : Nat)
    (hf : ∀ t, f (Event.buildLog i t) = none) (l : List String) :
    (l.map (Event.buildLog i)).filterMap f = [] := by
  induction l with
  | nil => rfl
  | cons a l ih => simp [List.filterMap_cons, hf, ih]

/-- One loop iteration contributes exactly one `build_step_start`, at its
own index. -/
theorem stepEvents_stepStartIdx (env : Env) (total : Nat) (s : Step) (i : Nat) :
    (stepEvents env total s i).filterMap stepStartIdx = [i] := by
  simp [stepEvents, List.filterMap_cons, stepStartIdx,
    filterMap_buildLog_none stepStartIdx i (fun t => rfl)]

/-- One loop iteration contributes exactly one `build_progress`, carrying
the binary64-computed percentage for its own index. -/
theorem stepEvents_progressValue (env : Env) (total : Nat) (s : Step) (i : Nat) :
    (stepEvents env total s i).filterMap progressValue = [pyProgress (i + 1) total] := by
  simp [stepEvents, List.filterMap_cons, progressValue,
    filterMap_buildLog_none progressValue i (fun t => rfl)]

/-- One loop iteration emits no `build_finished` by itself. -/
theorem stepEvents_finishedPayload (env : Env) (total : Nat) (s : Step) (i : Nat) :
    (stepEvents env total s i).filterMap finishedPayload = [] := by
  simp [stepEvents, List.filterMap_cons, finishedPayload,
    filterMap_buildLog_none finishedPayload i (fun t => rfl)]

/-- Every row one loop iteration commits carries its own step index. -/
theorem stepLogs_fst (env : Env) (s : Step) (i : Nat) :
    ∀ p ∈ stepLogs env s i, p.1 = i := by
  intro p hp
  simp only [stepLogs, List.mem_map] at hp
  obtain ⟨t, _, rfl⟩ := hp
  rfl

/-- Loop branch: failing step, record still present — fail-fast return. -/
theorem runSteps_cons_fail (env : Env) (total : Nat) (s : Step) (rest : List Step)
    (i : Nat) (b : BuildRec) (hterm : env.termLookup = some b)
    (h : stepRC env s i ≠ 0) :
    runSteps env total (s :: rest) i =
      ⟨stepEvents env total s i ++ [Event.finished .failed none], stepLogs env s i,
       [terminalWrite .failed], .stopped⟩ := by
  rw [runSteps, hterm]
  split
  · rfl
  · exact absurd h (by assumption)

/-- Loop branch: failing step, record deleted — `AttributeError` raised. -/
theorem runSteps_cons_fail_noterm (env : Env) (total : Nat) (s : Step) (rest : List Step)
    (i : Nat) (hterm : env.termLookup = none) (h : stepRC env s i ≠ 0) :
    runSteps env total (s :: rest) i =
      ⟨stepEvents env total s i, stepLogs env s i, [], .err "AttributeError"⟩ := by
  rw [runSteps, hterm]
  split
  · rfl
  · exact absurd h (by assumption)

/-- Loop branch: successful step — continue with the next index. -/
theorem runSteps_cons_ok (env : Env) (total : Nat) (s : Step) (rest : List Step)
    (i : Nat) (h : stepRC env s i = 0) :
    runSteps env total (s :: rest) i =
      ⟨stepEvents env total s i ++ (runSteps env total rest (i + 1)).events,
       stepLogs env s i ++ (runSteps env total rest (i + 1)).logs,
       (runSteps env total rest (i + 1)).writes,
       (runSteps env total rest (i + 1)).out⟩ := by
  rw [runSteps]
  split
  · exact absurd h (by simpa [stepRC] using (by assumption : ¬_ = (0 : Int)) )
  · rfl

end BuildRunner

namespace BuildRunner

/-- Fail-fast loop lemma: when the first `j` steps of the suffix `l`
(running at indices `i0, i0+1, ...`) exit with 0 and step `j` does not,
while the record is still present, the loop starts exactly steps
`i0 .. i0+j`, commits rows only for indices `≤ i0+j`, performs exactly the
failed terminal write, emits exactly one `build_finished{failed}`, and
takes the fail-fast return. -/
theorem runSteps_fail (env : Env) (total : Nat) (b : BuildRec)
    (hterm : env.termLookup = some b) :
    ∀ (l : List Step) (i0 j : Nat), j < l.length →
    (∀ d, d < j → stepRC env (l.getD d ⟨none⟩) (i0 + d) = 0) →
    stepRC env (l.getD j ⟨none⟩) (i0 + j) ≠ 0 →
    (runSteps env total l i0).events.filterMap stepStartIdx = List.range' i0 (j + 1) ∧
    (∀ p ∈ (runSteps env total l i0).logs, p.1 ≤ i0 + j) ∧
    (runSteps env total l i0).writes = [terminalWrite .failed] ∧
    (runSteps env total l i0).events.filterMap finishedPayload =
      [(BuildStatus.failed, none)] ∧
    (runSteps env total l i0).out = LoopOut.stopped := by
  intro l
  induction l with
  | nil => intro i0 j hj _ _; simp at hj
  | cons s rest ih =>
      intro i0 j hj hok hfail
      cases j with
      | zero =>
          rw [List.getD_cons_zero, Nat.add_zero] at hfail
          rw [runSteps_cons_fail env total s rest i0 b hterm hfail]
          refine ⟨?_, ?_, rfl, ?_, rfl⟩
          · simp [List.filterMap_append, stepEvents_stepStartIdx, stepStartIdx,
              List.range'_one]
          · intro p hp
            have := stepLogs_fst env s i0 p hp
            omega
          · simp [List.filterMap_append, stepEvents_finishedPayload, finishedPayload]
      | succ j =>
          have h0 : stepRC env s i0 = 0 := by
            have h := hok 0 (Nat.succ_pos j)
            rwa [List.getD_cons_zero, Nat.add_zero] at h
          rw [runSteps_cons_ok env total s rest i0 h0]
          have hok2 : ∀ d, d < j → stepRC env (rest.getD d ⟨none⟩) (i0 + 1 + d) = 0 := by
            intro d hd
            have h := hok (d + 1) (by omega)
            rw [List.getD_cons_succ] at h
            have e : i0 + (d + 1) = i0 + 1 + d := by omega
            rwa [e] at h
          have hfail2 : stepRC env (rest.getD j ⟨none⟩) (i0 + 1 + j) ≠ 0 := by
            have h := hfail
            rw [List.getD_cons_succ] at h
            have e : i0 + (j + 1) = i0 + 1 + j := by omega
            rwa [e] at h
          have hj2 : j < rest.length := by simp at hj; omega
          obtain ⟨h1, h2, h3, h4, h5⟩ := ih (i0 + 1) j hj2 hok2 hfail2
          refine ⟨?_, ?_, h3, ?_, h5⟩
          · simp only [List.filterMap_append, stepEvents_stepStartIdx, h1]
            rw [List.range'_succ]
            rfl
          · intro p hp
            rcases List.mem_append.mp hp with h | h
            · have := stepLogs_fst env s i0 p h; omega
            · have := h2 p h; omega
          · simp only [List.filterMap_append, stepEvents_finishedPayload, h4]
            rfl

/-- All-success loop lemma: when every step of the suffix exits with 0,
the loop starts every step exactly once in increasing index order,
performs no status write, emits no `build_finished`, and falls through. -/
theorem runSteps_all_ok (env : Env) (total : Nat) :
    ∀ (l : List Step) (i0 : Nat),
    (∀ d, d < l.length → stepRC env (l.getD d ⟨none⟩) (i0 + d) = 0) →
    (runSteps env total l i0).events.filterMap stepStartIdx = List.range' i0 l.length ∧
    (runSteps env total l i0).writes = [] ∧
    (runSteps env total l i0).events.filterMap finishedPayload = [] ∧
    (runSteps env total l i0).out = LoopOut.ok := by
  intro l
  induction l with
  | nil => intro i0 _; exact ⟨rfl, rfl, rfl, rfl⟩
  | cons s rest ih =>
      intro i0 hok
      have h0 : stepRC env s i0 = 0 := by
        have h := hok 0 (by simp)
        rwa [List.getD_cons_zero, Nat.add_zero] at h
      rw [runSteps_cons_ok env total s rest i0 h0]
      have hok2 : ∀ d, d < rest.length → stepRC env (rest.getD d ⟨none⟩) (i0 + 1 + d) = 0 := by
        intro d hd
        have h := hok (d + 1) (by simp; omega)
        rw [List.getD_cons_succ] at h
        have e : i0 + (d + 1) = i0 + 1 + d := by omega
        rwa [e] at h
      obtain ⟨h1, h2, h3, h4⟩ := ih (i0 + 1) hok2
      refine ⟨?_, h2, ?_, h4⟩
      · simp only [List.filterMap_append, stepEvents_stepStartIdx, h1, List.length_cons]
        rw [List.range'_succ]
        rfl
      · simp only [List.filterMap_append, stepEvents_finishedPayload, h3]
        rfl

end BuildRunner

namespace BuildRunner

/-- Progress loop lemma: whatever happens (success, fail-fast, or an
`AttributeError` out of the loop), exactly one `build_progress` event is
emitted per executed step, carrying the binary64-computed percentage
`pyProgress completed total` — the progress emit precedes the exit-code
check, so even the failing step gets one. -/
theorem runSteps_progress (env : Env) (total : Nat) :
    ∀ (l : List Step) (i0 : Nat),
    (runSteps env total l i0).events.filterMap progressValue =
      (List.range (execCount env l i0)).map (fun d => pyProgress (i0 + d + 1) total) := by
  intro l
  induction l with
  | nil => intro i0; rfl
  | cons s rest ih =>
      intro i0
      by_cases h : stepRC env s i0 = 0
      · rw [runSteps_cons_ok env total s rest i0 h]
        have hx : execCount env (s :: rest) i0 = execCount env rest (i0 + 1) + 1 := by
          simp [execCount, h]; omega
        rw [hx, List.filterMap_append, stepEvents_progressValue, ih (i0 + 1),
          List.range_succ_eq_map]
        simp only [List.map_cons, List.map_map, List.singleton_append, Nat.add_zero]
        refine congrArg₂ _ rfl ?_
        refine List.map_congr_left ?_
        intro d _
        simp only [Function.comp, Nat.succ_eq_add_one]
        have e : i0 + 1 + d + 1 = i0 + (d + 1) + 1 := by omega
        rw [e]
      · have hx : execCount env (s :: rest) i0 = 1 := by simp [execCount, h]
        rcases ht : env.termLookup with _ | b
        · rw [runSteps_cons_fail_noterm env total s rest i0 ht h, hx]
          have hr : List.range 1 = [0] := rfl
          simp [stepEvents_progressValue, hr]
        · rw [runSteps_cons_fail env total s rest i0 b ht h, hx]
          have hr : List.range 1 = [0] := rfl
          simp [List.filterMap_append, stepEvents_progressValue, progressValue, hr]

/-- Structural loop lemma: either the loop took the fail-fast return — then
its only write is the failed terminal one and its only `build_finished` is
the failed one — or it did not, and it performed no write and emitted no
`build_finished` at all. -/
theorem runSteps_shape (env : Env) (total : Nat) :
    ∀ (l : List Step) (i0 : Nat),
    ((runSteps env total l i0).out = LoopOut.stopped ∧
     (runSteps env total l i0).writes = [terminalWrite .failed] ∧
     (runSteps env total l i0).events.filterMap finishedPayload =
       [(BuildStatus.failed, none)]) ∨
    ((runSteps env total l i0).out ≠ LoopOut.stopped ∧
     (runSteps env total l i0).writes = [] ∧
     (runSteps env total l i0).events.filterMap finishedPayload = []) := by
  intro l
  induction l with
  | nil => intro i0; right; exact ⟨by simp [runSteps], rfl, rfl⟩
  | cons s rest ih =>
      intro i0
      by_cases h : stepRC env s i0 = 0
      · rw [runSteps_cons_ok env total s rest i0 h]
        rcases ih (i0 + 1) with ⟨h1, h2, h3⟩ | ⟨h1, h2, h3⟩
        · left
          exact ⟨h1, h2, by
            simp only [List.filterMap_append, stepEvents_finishedPayload, h3]; rfl⟩
        · right
          exact ⟨h1, h2, by
            simp only [List.filterMap_append, stepEvents_finishedPayload, h3]; rfl⟩
      · rcases ht : env.termLookup with _ | b
        · rw [runSteps_cons_fail_noterm env total s rest i0 ht h]
          right
          refine ⟨by simp, rfl, ?_⟩
          simp [stepEvents_finishedPayload]
        · rw [runSteps_cons_fail env total s rest i0 b ht h]
          left
          refine ⟨rfl, rfl, ?_⟩
          simp [List.filterMap_append, stepEvents_finishedPayload, finishedPayload]

/-- When the record vanished before any terminal write, the loop cannot
take the fail-fast return: it either falls through or raises, writes
nothing and emits no `build_finished`. -/
theorem runSteps_noterm (env : Env) (total : Nat) (hterm : env.termLookup = none) :
    ∀ (l : List Step) (i0 : Nat),
    (runSteps env total l i0).writes = [] ∧
    (runSteps env total l i0).events.filterMap finishedPayload = [] ∧
    ((runSteps env total l i0).out = LoopOut.ok ∨
     (runSteps env total l i0).out = LoopOut.err "AttributeError") := by
  intro l
  induction l with
  | nil => intro i0; exact ⟨rfl, rfl, Or.inl rfl⟩
  | cons s rest ih =>
      intro i0
      by_cases h : stepRC env s i0 = 0
      · rw [runSteps_cons_ok env total s rest i0 h]
        obtain ⟨h1, h2, h3⟩ := ih (i0 + 1)
        exact ⟨h1, by
          simp only [List.filterMap_append, stepEvents_finishedPayload, h2]; rfl, h3⟩
      · rw [runSteps_cons_fail_noterm env total s rest i0 hterm h]
        exact ⟨rfl, by simp [stepEvents_finishedPayload], Or.inr rfl⟩

end BuildRunner

namespace BuildRunner

/-- Handler branch: record still present — failed terminal write, then the
`build_finished{failed, error}` emit. -/
theorem handlerResult_some (env : Env) (hb : BuildRec)
    (hh : env.handlerLookup = some hb) (msg : String) (events : List Event)
    (logs : List (Nat × String)) (writes : List Write) :
    handlerResult env msg events logs writes =
      ⟨events ++ [Event.finished .failed (some msg)], logs,
       writes ++ [terminalWrite .failed]⟩ := by
  rw [handlerResult, hh]

/-- Handler branch: record gone — no write, but the
`build_finished{failed, error}` emit still happens. -/
theorem handlerResult_none (env : Env)
    (hh : env.handlerLookup = none) (msg : String) (events : List Event)
    (logs : List (Nat × String)) (writes : List Write) :
    handlerResult env msg events logs writes =
      ⟨events ++ [Event.finished .failed (some msg)], logs, writes⟩ := by
  rw [handlerResult, hh]

/-- Entry branch: missing record — empty trace. -/
theorem run_build_thread_missing (env : Env) (h : env.entryLookup = none) :
    run_build_thread env = ⟨[], [], []⟩ := by
  rw [run_build_thread, h]

/-- Entry branch: parse failure goes straight to the handler with only the
running write and the `build_status_update` emit accumulated. -/
theorem run_build_thread_parse_err (env : Env) (b : BuildRec) (e : String)
    (hentry : env.entryLookup = some b) (hparse : env.parse = .error e) :
    run_build_thread env =
      handlerResult env e [Event.statusUpdate .running] [] [runningWrite] := by
  rw [run_build_thread, hentry, hparse]

/-- Entry branch: the loop took the fail-fast return — its trace is final. -/
theorem run_build_thread_stopped (env : Env) (b : BuildRec) (steps : List Step)
    (hentry : env.entryLookup = some b) (hparse : env.parse = .ok steps)
    (hstop : (runSteps env (totalSteps steps) steps 0).out = LoopOut.stopped) :
    run_build_thread env =
      ⟨Event.statusUpdate .running :: (runSteps env (totalSteps steps) steps 0).events,
       (runSteps env (totalSteps steps) steps 0).logs,
       runningWrite :: (runSteps env (totalSteps steps) steps 0).writes⟩ := by
  rw [run_build_thread, hentry, hparse]
  simp only [hstop]
  rfl

/-- Entry branch: the loop raised — the handler finishes the trace. -/
theorem run_build_thread_err (env : Env) (b : BuildRec) (steps : List Step) (msg : String)
    (hentry : env.entryLookup = some b) (hparse : env.parse = .ok steps)
    (herr : (runSteps env (totalSteps steps) steps 0).out = LoopOut.err msg) :
    run_build_thread env =
      handlerResult env msg
        (Event.statusUpdate .running :: (runSteps env (totalSteps steps) steps 0).events)
        (runSteps env (totalSteps steps) steps 0).logs
        (runningWrite :: (runSteps env (totalSteps steps) steps 0).writes) := by
  rw [run_build_thread, hentry, hparse]
  simp only [herr]
  rfl

/-- Entry branch: all steps succeeded and the record is still present —
success terminal write and `build_finished{success}`. -/
theorem run_build_thread_success (env : Env) (b b' : BuildRec) (steps : List Step)
    (hentry : env.entryLookup = some b) (hparse : env.parse = .ok steps)
    (hok : (runSteps env (totalSteps steps) steps 0).out = LoopOut.ok)
    (hterm : env.termLookup = some b') :
    run_build_thread env =
      ⟨Event.statusUpdate .running ::
         ((runSteps env (totalSteps steps) steps 0).events ++ [Event.finished .success none]),
       (runSteps env (totalSteps steps) steps 0).logs,
       runningWrite ::
         ((runSteps env (totalSteps steps) steps 0).writes ++ [terminalWrite .success])⟩ := by
  rw [run_build_thread, hentry, hparse]
  simp only [hok, hterm]
  rfl

/-- Entry branch: all steps succeeded but the record vanished before the
success write — `AttributeError`, handled like any other body exception. -/
theorem run_build_thread_ok_noterm (env : Env) (b : BuildRec) (steps : List Step)
    (hentry : env.entryLookup = some b) (hparse : env.parse = .ok steps)
    (hok : (runSteps env (totalSteps steps) steps 0).out = LoopOut.ok)
    (hterm : env.termLookup = none) :
    run_build_thread env =
      handlerResult env "AttributeError"
        (Event.statusUpdate .running :: (runSteps env (totalSteps steps) steps 0).events)
        (runSteps env (totalSteps steps) steps 0).logs
        (runningWrite :: (runSteps env (totalSteps steps) steps 0).writes) := by
  rw [run_build_thread, hentry, hparse]
  simp only [hok, hterm]
  rfl

end BuildRunner

namespace BuildRunner

/-- A three-step pipeline whose commands all exit 0 with no output; the
record is present at every lookup. -/
def envAllOk : Env :=
  ⟨some ⟨.queued, none⟩,
   .ok [⟨some "echo A"⟩, ⟨some "echo B"⟩, ⟨some "echo C"⟩],
   fun _ => .runs [] 0,
   some ⟨.running, none⟩, some ⟨.running, none⟩⟩

/-- The spec's example scenario `[echo A, false, echo C]`: step 0 exits 0
with one line of output, step 1 exits 1, step 2 would echo but must never
run; the record is present at every lookup. -/
def envFailAt1 : Env :=
  ⟨some ⟨.queued, none⟩,
   .ok [⟨some "echo A"⟩, ⟨some "false"⟩, ⟨some "echo C"⟩],
   fun i => if i = 0 then .runs ["A"] 0 else .runs ["C"] 1,
   some ⟨.running, none⟩, some ⟨.running, none⟩⟩

/-- C1 — Fail-fast: when the first `j` steps (0-indexed) exit 0 and step
`j` does not, while the record stays present, only steps `0..j` are
started (`build_step_start` indices are exactly `0..j`, so none beyond the
failing step), no `BuildLog` row carries an index beyond `j`, the status
writes are exactly running-then-failed with `finished_at` set by the
terminal one, and exactly one `build_finished` is published, with status
`failed`. -/
theorem fail_fast (env : Env) (b b' : BuildRec) (steps : List Step) (j : Nat)
    (hentry : env.entryLookup = some b)
    (hparse : env.parse = .ok steps)
    (hterm : env.termLookup = some b')
    (hj : j < steps.length)
    (hok : ∀ d, d < j → stepRC env (steps.getD d ⟨none⟩) d = 0)
    (hfail : stepRC env (steps.getD j ⟨none⟩) j ≠ 0) :
    (run_build_thread env).events.filterMap stepStartIdx = List.range' 0 (j + 1) ∧
    (∀ p ∈ (run_build_thread env).logs, p.1 ≤ j) ∧
    (run_build_thread env).writes = [runningWrite, terminalWrite .failed] ∧
    (run_build_thread env).events.filterMap finishedPayload =
      [(BuildStatus.failed, none)] := by
  have hok0 : ∀ d, d < j → stepRC env (steps.getD d ⟨none⟩) (0 + d) = 0 := by
    intro d hd
    have h := hok d hd
    rwa [Nat.zero_add]
  have hfail0 : stepRC env (steps.getD j ⟨none⟩) (0 + j) ≠ 0 := by
    rwa [Nat.zero_add]
  obtain ⟨h1, h2, h3, h4, h5⟩ :=
    runSteps_fail env (totalSteps steps) b' hterm steps 0 j hj hok0 hfail0
  rw [run_build_thread_stopped env b steps hentry hparse h5]
  refine ⟨?_, ?_, ?_, ?_⟩
  · simp [List.filterMap_cons, stepStartIdx, h1]
  · intro p hp
    have := h2 p hp
    omega
  · rw [h3]
  · simp [List.filterMap_cons, finishedPayload, h4]

/-- Witness for C1 on the spec's example scenario: `build_step_start` for
indices 0 and 1 only, no logs for index 2, final status `failed` with
`finished_at`, exactly one `build_finished{failed}`. -/
theorem fail_fast_witness :
    (run_build_thread envFailAt1).events.filterMap stepStartIdx = List.range' 0 (1 + 1) ∧
    (∀ p ∈ (run_build_thread envFailAt1).logs, p.1 ≤ 1) ∧
    (run_build_thread envFailAt1).writes = [runningWrite, terminalWrite .failed] ∧
    (run_build_thread envFailAt1).events.filterMap finishedPayload =
      [(BuildStatus.failed, none)] :=
  fail_fast envFailAt1 ⟨.queued, none⟩ ⟨.running, none⟩
    [⟨some "echo A"⟩, ⟨some "false"⟩, ⟨some "echo C"⟩] 1
    rfl rfl rfl (by decide) (by decide) (by decide)

/-- At the last step `completed = total`, the binary64 computation is
exact: `n / n` rounds to exactly 1 (mantissa `2 ^ 52` on the grid
`2 ^ (-52)`), the product 100 is exactly representable, and truncation
returns 100. -/
theorem roundDouble_self (n : Nat) (hn : 0 < n) : roundDouble n n = (2 ^ 52, -52) := by
  have hne : ¬(n = 0 ∨ n = 0) := by omega
  have hlog : ratLog2 n n = 0 := by
    rw [ratLog2, if_pos (le_refl n), Nat.div_self hn]
    rfl
  have he : dblExp n n = -52 := by
    rw [dblExp, hlog]
    rfl
  have hm : mantissa n n (-52) = 2 ^ 52 := by
    rw [mantissa, if_pos (by decide : (-52 : Int) ≤ 0)]
    have harg : ((-(-52 : Int)).toNat) = 52 := by decide
    rw [harg, rnePos]
    have hmod : n * 2 ^ 52 % n = 0 := Nat.mul_mod_right n (2 ^ 52)
    have hdiv : n * 2 ^ 52 / n = 2 ^ 52 := by
      rw [Nat.mul_comm]
      exact Nat.mul_div_cancel (2 ^ 52) hn
    rw [hmod, hdiv, if_pos (by omega : 2 * 0 < n)]
  rw [roundDouble, if_neg hne, he, hm]

/-- `pyProgress n n = 100` for every `n ≥ 1`: the final progress value of
an all-success build is exactly 100 even in binary64. -/
theorem pyProgress_self (n : Nat) (hn : 0 < n) : pyProgress n n = 100 := by
  rw [pyProgress, roundDouble_self n hn]
  rfl

/-- Fidelity exhibit: after 29 of 100 steps the program publishes 28 —
`29 / 100` rounds to the double `0.289999...`, whose product with 100
rounds to `28.999999999999996`, truncating to 28 — where exact rational
arithmetic would give 29. -/
theorem pyProgress_twentynine_of_hundred : pyProgress 29 100 = 28 := by rfl

/-- Fidelity exhibit: after 58 of 100 steps the program publishes 57, not
the exact-arithmetic 58. -/
theorem pyProgress_fiftyeight_of_hundred : pyProgress 58 100 = 57 := by rfl

/-- C7 — All-success path: when every one of the `N ≥ 1` steps exits 0 and
the record stays present, the status writes are exactly running-then-
success with `finished_at` set by the terminal one, exactly `N`
`build_step_start` events occur, in strictly increasing index order
`0..N-1`, and the last `build_progress` value published is 100. -/
theorem all_success (env : Env) (b b' : BuildRec) (steps : List Step)
    (hentry : env.entryLookup = some b)
    (hparse : env.parse = .ok steps)
    (hterm : env.termLookup = some b')
    (hN : 0 < steps.length)
    (hok : ∀ d, d < steps.length → stepRC env (steps.getD d ⟨none⟩) d = 0) :
    (run_build_thread env).writes = [runningWrite, terminalWrite .success] ∧
    (run_build_thread env).events.filterMap stepStartIdx = List.range' 0 steps.length ∧
    ((run_build_thread env).events.filterMap progressValue).getLast? = some 100 := by
  have hok0 : ∀ d, d < steps.length → stepRC env (steps.getD d ⟨none⟩) (0 + d) = 0 := by
    intro d hd
    have h := hok d hd
    rwa [Nat.zero_add]
  obtain ⟨h1, h2, h3, h4⟩ := runSteps_all_ok env (totalSteps steps) steps 0 hok0
  rw [run_build_thread_success env b b' steps hentry hparse h4 hterm]
  have hcount : execCount env steps 0 = steps.length := by
    have hgen : ∀ (l : List Step) (i0 : Nat),
        (∀ d, d < l.length → stepRC env (l.getD d ⟨none⟩) (i0 + d) = 0) →
        execCount env l i0 = l.length := by
      intro l
      induction l with
      | nil => intro i0 _; rfl
      | cons s rest ih =>
          intro i0 hall
          have h0 : stepRC env s i0 = 0 := by
            have h := hall 0 (by simp)
            rwa [List.getD_cons_zero, Nat.add_zero] at h
          have hrest : ∀ d, d < rest.length →
              stepRC env (rest.getD d ⟨none⟩) (i0 + 1 + d) = 0 := by
            intro d hd
            have h := hall (d + 1) (by simp; omega)
            rw [List.getD_cons_succ] at h
            have e : i0 + (d + 1) = i0 + 1 + d := by omega
            rwa [e] at h
          simp [execCount, h0, ih (i0 + 1) hrest]
          omega
    exact hgen steps 0 hok0
  have hprog := runSteps_progress env (totalSteps steps) steps 0
  refine ⟨by simp [h2], ?_, ?_⟩
  · simp [List.filterMap_cons, stepStartIdx, List.filterMap_append, finishedPayload, h1]
  · have htot : totalSteps steps = steps.length := by
      rw [totalSteps, if_neg (by omega : ¬steps.length = 0)]
    obtain ⟨m, hm⟩ : ∃ m, steps.length = m + 1 := ⟨steps.length - 1, by omega⟩
    simp only [List.filterMap_cons, progressValue, List.filterMap_append,
      List.filterMap_nil, List.append_nil]
    rw [hprog]
    simp only [hcount, htot, hm, Nat.zero_add]
    rw [List.range_succ, List.map_append]
    simp only [List.map_cons, List.map_nil]
    rw [List.getLast?_concat]
    exact congrArg some (pyProgress_self (m + 1) (by omega))

end BuildRunner

namespace BuildRunner

/-- C7 witness on `envAllOk`: three successful steps, writes
running-then-success, `build_step_start` for indices 0,1,2, final progress
value 100. -/
theorem all_success_witness :
    (run_build_thread envAllOk).writes = [runningWrite, terminalWrite .success] ∧
    (run_build_thread envAllOk).events.filterMap stepStartIdx =
      List.range' 0 ([⟨some "echo A"⟩, ⟨some "echo B"⟩, ⟨some "echo C"⟩] : List Step).length ∧
    ((run_build_thread envAllOk).events.filterMap progressValue).getLast? = some 100 :=
  all_success envAllOk ⟨.queued, none⟩ ⟨.running, none⟩
    [⟨some "echo A"⟩, ⟨some "echo B"⟩, ⟨some "echo C"⟩]
    rfl rfl rfl (by decide) (by decide)

/-- C4 counterexample: on a three-step pipeline whose steps all succeed,
the code publishes progress values `[33, 66, 100]` — the second value,
after 2 of 3 steps completed, is the truncation 66, whereas
`round((completed_steps / total_steps) * 100) = round(2/3 * 100) = 67`.
So the published progress does not equal the claimed rounding. -/
theorem progress_round_counterexample :
    (run_build_thread envAllOk).events.filterMap progressValue = [33, 66, 100] ∧
    round ((2 : ℚ) / 3 * 100) = 67 ∧ (66 : ℤ) ≠ 67 := by
  refine ⟨by decide, ?_, by decide⟩
  rw [round_eq]
  have h : ((2 : ℚ) / 3 * 100 + 1 / 2) = 403 / 6 := by norm_num
  rw [h, Int.floor_eq_iff]
  constructor
  · norm_num
  · norm_num

/-- C4 amended — after each step that executes, exactly one `build_progress`
event is published, and its value is
`int(((completed_steps / total_steps) * 100))` computed in the program's
IEEE-754 binary64 arithmetic and truncated toward zero (`pyProgress`) —
not the rounding: the list of published progress values is exactly
`pyProgress completed total` for each executed step, in order. -/
theorem progress_truncated (env : Env) (b : BuildRec) (steps : List Step)
    (hentry : env.entryLookup = some b) (hparse : env.parse = .ok steps) :
    (run_build_thread env).events.filterMap progressValue =
      (List.range (execCount env steps 0)).map
        (fun d => pyProgress (d + 1) (totalSteps steps)) := by
  have hprog := runSteps_progress env (totalSteps steps) steps 0
  have hsimp : List.filterMap progressValue (runSteps env (totalSteps steps) steps 0).events =
      (List.range (execCount env steps 0)).map
        (fun d => pyProgress (d + 1) (totalSteps steps)) := by
    rw [hprog]
    simp only [Nat.zero_add]
  rcases hout : (runSteps env (totalSteps steps) steps 0).out with _ | _ | msg
  · rcases hterm : env.termLookup with _ | b'
    · rw [run_build_thread_ok_noterm env b steps hentry hparse hout hterm]
      rcases hh : env.handlerLookup with _ | hb
      · rw [handlerResult_none env hh]
        simp [List.filterMap_cons, List.filterMap_append, progressValue, hsimp]
      · rw [handlerResult_some env hb hh]
        simp [List.filterMap_cons, List.filterMap_append, progressValue, hsimp]
    · rw [run_build_thread_success env b b' steps hentry hparse hout hterm]
      simp [List.filterMap_cons, List.filterMap_append, progressValue, hsimp]
  · rw [run_build_thread_stopped env b steps hentry hparse hout]
    simp [List.filterMap_cons, progressValue, hsimp]
  · rw [run_build_thread_err env b steps msg hentry hparse hout]
    rcases hh : env.handlerLookup with _ | hb
    · rw [handlerResult_none env hh]
      simp [List.filterMap_cons, List.filterMap_append, progressValue, hsimp]
    · rw [handlerResult_some env hb hh]
      simp [List.filterMap_cons, List.filterMap_append, progressValue, hsimp]

/-- C4 amended witness on `envAllOk`: the published progress values are the
binary64-truncated percentages of the three executed steps. -/
theorem progress_truncated_witness :
    (run_build_thread envAllOk).events.filterMap progressValue =
      (List.range (execCount envAllOk
          ([⟨some "echo A"⟩, ⟨some "echo B"⟩, ⟨some "echo C"⟩] : List Step) 0)).map
        (fun d => pyProgress (d + 1)
          (totalSteps ([⟨some "echo A"⟩, ⟨some "echo B"⟩, ⟨some "echo C"⟩] : List Step))) :=
  progress_truncated envAllOk ⟨.queued, none⟩
    [⟨some "echo A"⟩, ⟨some "echo B"⟩, ⟨some "echo C"⟩] rfl rfl

/-- A malformed `pipeline_config_json`: `json.loads` raises; the record is
present at every lookup. -/
def envParseErr : Env :=
  ⟨some ⟨.queued, none⟩, .error "Expecting value", fun _ => .runs [] 0,
   some ⟨.running, none⟩, some ⟨.running, none⟩⟩

/-- C5 — Safety net: any fault of the orchestration body (a pipeline parse
failure, or the record vanishing before a terminal write — the store
exception the body can raise) is caught at the top level; with the record
still present at the handler's lookup, the last status write forces
`failed` with `finished_at` set, and exactly one `build_finished` is
published, with status `failed` and the error message.  (`run_build_thread`
is a total function of `Env`: no exception escapes the background task.) -/
theorem safety_net (env : Env) (b hb : BuildRec)
    (hentry : env.entryLookup = some b)
    (hfault : (∃ e, env.parse = Except.error e) ∨ env.termLookup = none)
    (hhandler : env.handlerLookup = some hb) :
    (run_build_thread env).writes.getLast? = some (terminalWrite .failed) ∧
    (run_build_thread env).events.filterMap finishedPayload =
      [(BuildStatus.failed, some (faultMsg env))] := by
  rcases hfault with ⟨e, hparse⟩ | hterm
  · rw [run_build_thread_parse_err env b e hentry hparse, handlerResult_some env hb hhandler]
    have hf : faultMsg env = e := by rw [faultMsg, hparse]
    refine ⟨by simp, ?_⟩
    simp [List.filterMap_cons, List.filterMap_append, finishedPayload, hf]
  · rcases hparse2 : env.parse with e | steps
    · rw [run_build_thread_parse_err env b e hentry hparse2, handlerResult_some env hb hhandler]
      have hf : faultMsg env = e := by rw [faultMsg, hparse2]
      refine ⟨by simp, ?_⟩
      simp [List.filterMap_cons, List.filterMap_append, finishedPayload, hf]
    · have hf : faultMsg env = "AttributeError" := by rw [faultMsg, hparse2]
      obtain ⟨h1, h2, h3⟩ := runSteps_noterm env (totalSteps steps) hterm steps 0
      rcases h3 with hout | hout
      · rw [run_build_thread_ok_noterm env b steps hentry hparse2 hout hterm,
          handlerResult_some env hb hhandler]
        refine ⟨by rw [h1]; rfl, ?_⟩
        simp [List.filterMap_cons, List.filterMap_append, finishedPayload, h2, hf]
      · rw [run_build_thread_err env b steps "AttributeError" hentry hparse2 hout,
          handlerResult_some env hb hhandler]
        refine ⟨by rw [h1]; rfl, ?_⟩
        simp [List.filterMap_cons, List.filterMap_append, finishedPayload, h2, hf]

/-- C5 witness on `envParseErr`: the parse failure is caught, the last
write is the failed terminal one, and the single `build_finished` carries
status `failed` and the parse error message. -/
theorem safety_net_witness :
    (run_build_thread envParseErr).writes.getLast? = some (terminalWrite .failed) ∧
    (run_build_thread envParseErr).events.filterMap finishedPayload =
      [(BuildStatus.failed, some (faultMsg envParseErr))] :=
  safety_net envParseErr ⟨.queued, none⟩ ⟨.running, none⟩ rfl
    (Or.inl ⟨"Expecting value", rfl⟩) rfl

/-- A build id that no longer resolves in storage when the executor
starts. -/
def envMissing : Env :=
  ⟨none, .ok [⟨some "echo A"⟩], fun _ => .runs [] 0, none, none⟩

/-- C6 — No-op guard: when the build id does not resolve to a record at
entry, the executor performs no status write, publishes no events, commits
no logs, and does not raise — the whole trace is empty. -/
theorem noop_guard (env : Env) (h : env.entryLookup = none) :
    run_build_thread env = ⟨[], [], []⟩ :=
  run_build_thread_missing env h

/-- C6 witness on `envMissing`. -/
theorem noop_guard_witness : run_build_thread envMissing = ⟨[], [], []⟩ :=
  noop_guard envMissing rfl

/-- C9 — `finished_at` iff terminal: every status write the executor
commits sets `finished_at` exactly when the status it assigns is terminal
(`success` or `failed`), and replaying the run's writes over a fresh
`queued` record with unset `finished_at` yields a record whose
`finished_at` is set iff its status is terminal. -/
theorem finished_at_iff_terminal (env : Env) :
    (∀ w ∈ (run_build_thread env).writes,
      w.sets_finished = true ↔
        (w.status = BuildStatus.success ∨ w.status = BuildStatus.failed)) ∧
    (((run_build_thread env).writes.foldl applyWrite ⟨.queued, none⟩).finished_at.isSome ↔
      (((run_build_thread env).writes.foldl applyWrite ⟨.queued, none⟩).status =
          BuildStatus.success ∨
       ((run_build_thread env).writes.foldl applyWrite ⟨.queued, none⟩).status =
          BuildStatus.failed)) := by
  have hshape : (run_build_thread env).writes = [] ∨
      (run_build_thread env).writes = [runningWrite] ∨
      (run_build_thread env).writes = [runningWrite, terminalWrite .failed] ∨
      (run_build_thread env).writes = [runningWrite, terminalWrite .success] := by
    rcases hentry : env.entryLookup with _ | b
    · left
      rw [run_build_thread_missing env hentry]
    · rcases hparse : env.parse with e | steps
      · rcases hh : env.handlerLookup with _ | hb
        · right; left
          rw [run_build_thread_parse_err env b e hentry hparse, handlerResult_none env hh]
        · right; right; left
          rw [run_build_thread_parse_err env b e hentry hparse,
            handlerResult_some env hb hh]
          rfl
      · rcases runSteps_shape env (totalSteps steps) steps 0 with ⟨ho, hw, _⟩ | ⟨ho, hw, _⟩
        · right; right; left
          rw [run_build_thread_stopped env b steps hentry hparse ho, hw]
        · rcases hout : (runSteps env (totalSteps steps) steps 0).out with _ | _ | msg
          · rcases hterm : env.termLookup with _ | b'
            · rcases hh : env.handlerLookup with _ | hb
              · right; left
                rw [run_build_thread_ok_noterm env b steps hentry hparse hout hterm,
                  handlerResult_none env hh, hw]
              · right; right; left
                rw [run_build_thread_ok_noterm env b steps hentry hparse hout hterm,
                  handlerResult_some env hb hh, hw]
                rfl
            · right; right; right
              rw [run_build_thread_success env b b' steps hentry hparse hout hterm, hw]
              rfl
          · exact absurd hout ho
          · rcases hh : env.handlerLookup with _ | hb
            · right; left
              rw [run_build_thread_err env b steps msg hentry hparse hout,
                handlerResult_none env hh, hw]
            · right; right; left
              rw [run_build_thread_err env b steps msg hentry hparse hout,
                handlerResult_some env hb hh, hw]
              rfl
  rcases hshape with h | h | h | h <;> rw [h] <;> exact ⟨by decide, by decide⟩

/-- An orchestration fault (the record vanished before the terminal write)
with the record also gone at the handler's lookup. -/
def envDeletedMid : Env :=
  ⟨some ⟨.queued, none⟩, .ok [⟨some "echo A"⟩], fun _ => .runs [] 0, none, none⟩

/-- C10 — handler with vanished record: when an orchestration fault is
caught and the record no longer exists at the handler's lookup, the
handler performs no status write (the run's writes stay at the single
initial running write), yet still publishes one
`build_finished{failed, error}` — so a `build_finished` event can be
published for a build id absent from storage, unlike the entry-time no-op
guard, which publishes nothing. -/
theorem handler_publishes_despite_missing (env : Env) (b : BuildRec)
    (hentry : env.entryLookup = some b)
    (hfault : (∃ e, env.parse = Except.error e) ∨ env.termLookup = none)
    (hhandler : env.handlerLookup = none) :
    (run_build_thread env).writes = [runningWrite] ∧
    (run_build_thread env).events.filterMap finishedPayload =
      [(BuildStatus.failed, some (faultMsg env))] := by
  rcases hfault with ⟨e, hparse⟩ | hterm
  · rw [run_build_thread_parse_err env b e hentry hparse, handlerResult_none env hhandler]
    have hf : faultMsg env = e := by rw [faultMsg, hparse]
    refine ⟨by simp, ?_⟩
    simp [List.filterMap_cons, List.filterMap_append, finishedPayload, hf]
  · rcases hparse2 : env.parse with e | steps
    · rw [run_build_thread_parse_err env b e hentry hparse2, handlerResult_none env hhandler]
      have hf : faultMsg env = e := by rw [faultMsg, hparse2]
      refine ⟨by simp, ?_⟩
      simp [List.filterMap_cons, List.filterMap_append, finishedPayload, hf]
    · have hf : faultMsg env = "AttributeError" := by rw [faultMsg, hparse2]
      obtain ⟨h1, h2, h3⟩ := runSteps_noterm env (totalSteps steps) hterm steps 0
      rcases h3 with hout | hout
      · rw [run_build_thread_ok_noterm env b steps hentry hparse2 hout hterm,
          handlerResult_none env hhandler]
        refine ⟨by simp [h1], ?_⟩
        simp [List.filterMap_cons, List.filterMap_append, finishedPayload, h2, hf]
      · rw [run_build_thread_err env b steps "AttributeError" hentry hparse2 hout,
          handlerResult_none env hhandler]
        refine ⟨by simp [h1], ?_⟩
        simp [List.filterMap_cons, List.filterMap_append, finishedPayload, h2, hf]

/-- C10 witness on `envDeletedMid`: the record vanished mid-run; the only
write is the initial running one, yet `build_finished{failed,
AttributeError}` is published. -/
theorem handler_publishes_despite_missing_witness :
    (run_build_thread envDeletedMid).writes = [runningWrite] ∧
    (run_build_thread envDeletedMid).events.filterMap finishedPayload =
      [(BuildStatus.failed, some (faultMsg envDeletedMid))] :=
  handler_publishes_despite_missing envDeletedMid ⟨.queued, none⟩ rfl (Or.inr rfl) rfl

end BuildRunner
